import Mathlib

/-!
# The request pipeline of `src/app.js`

`app.js` builds one Express application: seven `app.use` stages in a fixed
order, the route `app.get('/')` and the mount `app.use('/api/auth', AuthRoutes)`.
The development below embeds that composition as a function from a request to
the trace of what happens while it is handled (stages invoked, handlers
invoked, logger calls, the response sent), and proves the pipeline contract
over that trace.

The stage functions themselves (`helmet()`, `cors()`, `express.json()`,
`express.urlencoded()`, `cookieParser()`, `securityMiddleware`) and the router
`AuthRoutes` are collaborators imported by `app.js`; they enter as parameters,
each free to call `next()`, end the response, fail, or leave the request
hanging. What Express does with them (ordered dispatch, route matching,
mounting, `res.send`, the default final handler) is written out.
-/

namespace App

/-! ## Data model -/

/-- One inbound HTTP call as the pipeline sees it. `path` is the pathname of
`req.url`, `baseUrl` the mount path already consumed (`req.baseUrl`), and header
names are held in lower case, as Node keys them. -/
structure Request where
  method : String
  path : String
  baseUrl : String
  headers : List (String × String)
  body : String
  cookies : List (String × String)
  deriving DecidableEq, Repr

/-- The outbound result: `res.statusCode`, the headers on the response (lower-case
names, as Node keys them), and the body handed to `res.end`. The headers hold
what the stages put there and what the final handler changes; the entity
headers that `res.send` and the router's OPTIONS answer write themselves
(Content-Type, Content-Length, ETag, Allow) are not recorded. -/
structure Response where
  status : Nat
  headers : List (String × String)
  body : String
  deriving DecidableEq, Repr

/-- An error passed to `next(err)` or thrown by a stage or handler, with the
properties the final handler reads: `err.status`, `err.statusCode` and
`err.headers`. -/
structure Fault where
  status : Option Nat
  statusCode : Option Nat
  headers : List (String × String)
  message : String
  deriving DecidableEq, Repr

/-- What one stage or handler does with the request and the response in
progress: call `next()` (having possibly transformed either), end the response
itself, fail (with `res` the response as it left it), or do none of these and
leave the request hanging (again with the response as it left it). -/
inductive Outcome where
  | next (req : Request) (res : Response)
  | respond (res : Response)
  | fault (err : Fault) (res : Response)
  | hang (res : Response)
  deriving DecidableEq, Repr

/-- The shape of `(req, res, next) => ...`. -/
abbrev Middleware := Request → Response → Outcome

/-- The seven stages registered with `app.use` (app.js lines 12-24). -/
inductive Stage where
  | helmet
  | cors
  | json
  | urlencoded
  | cookieParser
  | morgan
  | securityMiddleware
  deriving DecidableEq, Repr

/-- Everything `app.js` imports and does not define: the stage functions, the
mounted router, and the library functions whose results depend on data outside
the model (the clock and remote address in morgan's `combined` line, the hash
in the ETag, HTTP date parsing, the final handler's HTML page). -/
structure Collaborators where
  helmet : Middleware
  cors : Middleware
  json : Middleware
  urlencoded : Middleware
  cookieParser : Middleware
  securityMiddleware : Middleware
  AuthRoutes : Middleware
  combined : Request → Response → String
  etag : String → String
  parseHttpDate : String → Option Nat
  errorPage : Request → Nat → Option Fault → String

/-- One observable step of handling a request: a stage is invoked, the greeting
handler is invoked, the authentication router is called, morgan writes to its
stream, `logger.info` is called, the final handler converts a fault, a response
is sent, or the connection ends without any response having been sent. -/
inductive Event where
  | stage (s : Stage)
  | greeting
  | auth (req : Request) (res : Response)
  | write (message : String)
  | info (message : String)
  | fallback (err : Fault)
  | send (res : Response)
  | closed
  deriving DecidableEq, Repr

/-! ## Registration (app.js lines 10-32) -/

/-- The `app.use` calls of lines 12-24, in source order. -/
def registered : List Stage :=
  [.helmet, .cors, .json, .urlencoded, .cookieParser, .morgan, .securityMiddleware]

/-- The function behind each registered stage. `morgan('combined', ...)` without
`immediate` only arms a listener for the end of the response and calls
`next()`; the arming is tracked by `runChain`. -/
def Collaborators.run (c : Collaborators) : Stage → Middleware
  | .helmet => c.helmet
  | .cors => c.cors
  | .json => c.json
  | .urlencoded => c.urlencoded
  | .cookieParser => c.cookieParser
  | .morgan => fun req res => .next req res
  | .securityMiddleware => c.securityMiddleware

/-- The response object Express hands to the first stage: status 200, nothing
written. -/
def freshResponse : Response := { status := 200, headers := [], body := "" }

/-! ## Route matching -/

/-- ASCII lower-casing (`toLowerCase` on a method name or a path), written over
the character list so that it evaluates on literals. -/
def lower (s : String) : String := ⟨s.data.map Char.toLower⟩

/-- Whether the string begins with a slash. -/
def startsWithSlash (s : String) : Bool :=
  match s.data with
  | c :: _ => c == '/'
  | [] => false

/-- The route path of `app.get('/', ...)` against the request pathname. Routing is
not strict, so the matcher accepts the path with one more closing slash as
well: `/` and `//`. -/
def greetingPath (path : String) : Bool := path == "/" || path == "//"

/-- Express `Route._handlesMethod` for a route that only has a `get` handler:
the method is lower-cased and HEAD is served by the GET handler. -/
def handlesMethod (method : String) : Bool :=
  let name := lower method
  (if name == "head" then "get" else name) == "get"

/-- The mount path of `app.use('/api/auth', AuthRoutes)`. -/
def mountPath : String := "/api/auth"

/-- The part of the pathname the mount layer consumes, if it matches: routing is
case-insensitive, the mount path must end at a segment boundary, and a single
closing slash is consumed with it. -/
def matchMount (path : String) : Option String :=
  let head := path.take mountPath.length
  let rest := path.drop mountPath.length
  if lower head == mountPath then
    if rest == "" then some head
    else if rest == "/" then some path
    else if startsWithSlash rest then some head
    else none
  else none

/-- Whether the pathname lies under the mount `/api/auth`. -/
def underAuth (path : String) : Bool := (matchMount path).isSome

/-- The request as the mounted router sees it: the consumed part is cut from the
path (a leading slash is restored when none is left) and appended, without a
closing slash, to the base URL. -/
def mountRequest (req : Request) (removed : String) : Request :=
  let url := req.path.drop removed.length
  { req with
    path := if startsWithSlash url then url else "/" ++ url
    baseUrl := req.baseUrl ++ (if removed.back == '/' then removed.dropRight 1 else removed) }

/-- The request after the mounted router called `next()`: Express takes the added
slash off again, puts the consumed part back in front and restores the base
URL. -/
def unmountRequest (parent : Request) (removed : String) (sub : Request) : Request :=
  let slashAdded := !startsWithSlash (parent.path.drop removed.length)
  { sub with
    path := removed ++ (if slashAdded then sub.path.drop 1 else sub.path)
    baseUrl := parent.baseUrl }

/-! ## Sending a response -/

/-- JavaScript truthiness of an optional header value. -/
def truthy : Option String → Bool
  | some v => v != ""
  | none => false

/-- The token list of an `If-None-Match` value: split at commas, spaces around
each token dropped. -/
def parseTokenList (value : String) : List String :=
  (value.splitOn ",").map fun t =>
    String.mk ((t.data.dropWhile (· == ' ')).reverse.dropWhile (· == ' ')).reverse

/-- The characters a JavaScript regular expression matches with `\s`. -/
def isJsSpace (ch : Char) : Bool :=
  let n := ch.toNat
  (9 ≤ n && n ≤ 13) || n == 32 || n == 160 || n == 5760 || (8192 ≤ n && n ≤ 8202) ||
    n == 8232 || n == 8233 || n == 8239 || n == 8287 || n == 12288 || n == 65279

/-- The `Cache-Control: no-cache` test of the freshness check: some element of the
comma-separated value is `no-cache` once the white space around it is
dropped. -/
def noCache (value : String) : Bool :=
  (value.splitOn ",").any fun t =>
    String.mk ((t.data.dropWhile isJsSpace).reverse.dropWhile isJsSpace).reverse == "no-cache"

/-- The `fresh` check on the request headers against the validators of the
response about to be sent. -/
def fresh (c : Collaborators) (reqHeaders : List (String × String))
    (etag lastModified : Option String) : Bool :=
  let modifiedSince := reqHeaders.lookup "if-modified-since"
  let noneMatch := reqHeaders.lookup "if-none-match"
  if !truthy modifiedSince && !truthy noneMatch then false
  else if (match reqHeaders.lookup "cache-control" with
      | some cc => cc != "" && noCache cc
      | none => false) then false
  else if truthy noneMatch then
    match noneMatch, etag with
    | some "*", _ => true
    | some nm, some tag =>
      tag != "" && (parseTokenList nm).any fun m => m == tag || m == "W/" ++ tag || "W/" ++ m == tag
    | _, _ => false
  else
    match modifiedSince, lastModified with
    | some ms, some lm =>
      lm != "" &&
        (match c.parseHttpDate lm, c.parseHttpDate ms with
          | some a, some b => decide (a ≤ b)
          | _, _ => false)
    | _, _ => false

/-- Express `req.fresh`: only GET and HEAD, only for a 2xx or 304 status. -/
def reqFresh (c : Collaborators) (req : Request) (res : Response) (etag : Option String) : Bool :=
  if req.method != "GET" && req.method != "HEAD" then false
  else if (200 ≤ res.status && res.status < 300) || res.status == 304 then
    fresh c req.headers etag (res.headers.lookup "last-modified")
  else false

/-- Express `res.status(code)`. -/
def Response.setStatus (res : Response) (code : Nat) : Response := { res with status := code }

/-- Express `res.send(body)` for a string body: an ETag is generated unless one is
set, a fresh conditional request turns the status into 304, the body is dropped
for 204, 205 and 304, and nothing is written for HEAD. -/
def send (c : Collaborators) (req : Request) (res : Response) (body : String) : Response :=
  let etag := if truthy (res.headers.lookup "etag") then res.headers.lookup "etag" else some (c.etag body)
  let res1 := if reqFresh c req res etag then res.setStatus 304 else res
  let chunk := if res1.status == 204 || res1.status == 304 || res1.status == 205 then "" else body
  { res1 with body := if req.method == "HEAD" then "" else chunk }

/-- The status the final handler takes from the error: `err.status`, else
`err.statusCode`, each only when it is a 4xx or 5xx code. -/
def getErrorStatusCode (err : Fault) : Option Nat :=
  match err.status with
  | some s => if 400 ≤ s ∧ s < 600 then some s else
    match err.statusCode with
    | some t => if 400 ≤ t ∧ t < 600 then some t else none
    | none => none
  | none =>
    match err.statusCode with
    | some t => if 400 ≤ t ∧ t < 600 then some t else none
    | none => none

/-- The status the final handler falls back to: the one already on the response
when it is a 4xx or 5xx code, else 500. -/
def getResponseStatusCode (res : Response) : Nat :=
  if res.status < 400 ∨ res.status > 599 then 500 else res.status

/-- The status of the final handler's answer: 404 when nothing answered, the
error's or the response's status (or 500) when a fault reached it. -/
def finalStatus (err : Option Fault) (res : Response) : Nat :=
  match err with
  | some e =>
    match getErrorStatusCode e with
    | some s => s
    | none => getResponseStatusCode res
  | none => 404

/-- Node `res.removeHeader`. -/
def removeHeader (headers : List (String × String)) (name : String) : List (String × String) :=
  headers.filter fun kv => kv.1 != name

/-- Node `res.setHeader`: the value of a header already present is replaced where
it stands, a new header is added at the end. -/
def setHeader (headers : List (String × String)) (name value : String) :
    List (String × String) :=
  if headers.any (fun kv => kv.1 == name) then
    headers.map fun kv => if kv.1 == name then (name, value) else kv
  else headers ++ [(name, value)]

/-- The headers of the final handler's answer: the content headers are removed,
the error's own headers are applied when the status was taken from the error,
and the security and entity headers of the error page are set. -/
def finalHeaders (err : Option Fault) (res : Response) (page : String) :
    List (String × String) :=
  let cleared :=
    removeHeader (removeHeader (removeHeader res.headers "content-encoding") "content-language")
      "content-range"
  let own :=
    match err with
    | some e =>
      if (getErrorStatusCode e).isSome then
        e.headers.foldl (fun acc kv => setHeader acc (lower kv.1) kv.2) cleared
      else cleared
    | none => cleared
  setHeader
    (setHeader
      (setHeader (setHeader own "content-security-policy" "default-src \x27none\x27")
        "x-content-type-options" "nosniff")
      "content-type" "text/html; charset=utf-8")
    "content-length" (toString page.utf8ByteSize)

/-- Express ends every request no layer answered with `finalhandler`. -/
def finalhandler (c : Collaborators) (err : Option Fault) (req : Request) (res : Response) :
    Response :=
  let status := finalStatus err res
  { status := status
    headers := finalHeaders err res (c.errorPage req status err)
    body := if req.method == "HEAD" then "" else c.errorPage req status err }

/-! ## Handling one request -/

/-- The end of a response: it is sent, and if morgan was armed its listener writes
the formatted line followed by a newline to the stream of line 20, which hands
the trimmed line to `logger.info`. -/
def finish (c : Collaborators) (req : Request) (armed : Bool) (res : Response) : List Event :=
  .send res ::
    (if armed then
      [.write (c.combined req res ++ "\n"), .info (c.combined req res ++ "\n").trim]
    else [])

/-- A fault reaching the top of the application: converted by the final
handler, which reads the response as the failing stage or handler left it. -/
def failWith (c : Collaborators) (req : Request) (armed : Bool) (res : Response) (err : Fault) :
    List Event :=
  .fallback err :: finish c req armed (finalhandler c (some err) req res)

/-- A stage or handler neither called `next()` nor ended the response: nothing is
sent, and the request stays open until the connection ends. morgan's listener
also listens for the end of the connection, so if it was armed it writes its
line then. -/
def abandon (c : Collaborators) (req : Request) (armed : Bool) (res : Response) : List Event :=
  .closed ::
    (if armed then
      [.write (c.combined req res ++ "\n"), .info (c.combined req res ++ "\n").trim]
    else [])

/-- The methods the router collected for its automatic OPTIONS answer: those of
each route whose path matched and whose handlers do not serve OPTIONS. -/
def allowed (req : Request) : List String :=
  if req.method == "OPTIONS" && greetingPath req.path && !handlesMethod req.method then
    ["GET", "HEAD"]
  else []

/-- The answer when no layer answered: an OPTIONS request for a known route path
gets the list of its methods, anything else the final handler's 404. -/
def defaultResponse (c : Collaborators) (req : Request) (res : Response) : Response :=
  if allowed req = [] then finalhandler c none req res
  else { res with body := ", ".intercalate (allowed req) }

/-- The router's `done` callback: nothing answered, Express answers itself. -/
def done (c : Collaborators) (req : Request) (res : Response) (armed : Bool) : List Event :=
  finish c req armed (defaultResponse c req res)

/-- The handler of `app.get('/', ...)` (lines 26-30). -/
def greetingHandler (c : Collaborators) (req : Request) (res : Response) (armed : Bool) :
    List Event :=
  .greeting :: .info "Hello From Bhavin!" ::
    finish c req armed (send c req (res.setStatus 200) "Hello From Bhavin")

/-- The route table (lines 26-32) in registration order: the greeting route, then
the mounted authentication router, then nothing. -/
def dispatch (c : Collaborators) (req : Request) (res : Response) (armed : Bool) : List Event :=
  if greetingPath req.path && handlesMethod req.method then greetingHandler c req res armed
  else
    match matchMount req.path with
    | some removed =>
      .auth (mountRequest req removed) res ::
        (match c.AuthRoutes (mountRequest req removed) res with
          | .respond r => finish c req armed r
          | .fault e res1 => failWith c req armed res1 e
          | .hang res1 => abandon c req armed res1
          | .next sub res1 => done c (unmountRequest req removed sub) res1 armed)
    | none => done c req res armed

/-- Whether morgan's listener is armed once stage `s` has been invoked. -/
def arm (armed : Bool) (s : Stage) : Bool := armed || s == .morgan

/-- The stage chain: each stage is invoked in turn; `next()` moves on, a response
ends the request, a fault goes to the final handler, and a stage that does
none of these leaves the request hanging. Running morgan arms its listener. -/
def runChain (c : Collaborators) : List Stage → Request → Response → Bool → List Event
  | [], req, res, armed => dispatch c req res armed
  | s :: rest, req, res, armed =>
    .stage s ::
      (match c.run s req res with
        | .next req1 res1 => runChain c rest req1 res1 (arm armed s)
        | .respond r => finish c req (arm armed s) r
        | .fault e res1 => failWith c req (arm armed s) res1 e
        | .hang res1 => abandon c req (arm armed s) res1)

/-- The application as exported by `app.js`: what happens for one request. -/
def handle (c : Collaborators) (req : Request) : List Event :=
  runChain c registered req freshResponse false

/-! ## Reading a trace -/

/-- The stage of a stage event. -/
def Event.stage? : Event → Option Stage
  | .stage s => some s
  | .greeting => none
  | .auth _ _ => none
  | .write _ => none
  | .info _ => none
  | .fallback _ => none
  | .send _ => none
  | .closed => none

/-- The response of a send event. -/
def Event.send? : Event → Option Response
  | .stage _ => none
  | .greeting => none
  | .auth _ _ => none
  | .write _ => none
  | .info _ => none
  | .fallback _ => none
  | .send r => some r
  | .closed => none

/-- The line of a `logger.info` call. -/
def Event.info? : Event → Option String
  | .stage _ => none
  | .greeting => none
  | .auth _ _ => none
  | .write _ => none
  | .info m => some m
  | .fallback _ => none
  | .send _ => none
  | .closed => none

/-- The text morgan wrote to its stream. -/
def Event.write? : Event → Option String
  | .stage _ => none
  | .greeting => none
  | .auth _ _ => none
  | .write m => some m
  | .info _ => none
  | .fallback _ => none
  | .send _ => none
  | .closed => none

/-- The error of a final-handler conversion. -/
def Event.fallback? : Event → Option Fault
  | .stage _ => none
  | .greeting => none
  | .auth _ _ => none
  | .write _ => none
  | .info _ => none
  | .fallback e => some e
  | .send _ => none
  | .closed => none

/-- The request and response a call of `AuthRoutes` received. -/
def Event.auth? : Event → Option (Request × Response)
  | .stage _ => none
  | .greeting => none
  | .auth req res => some (req, res)
  | .write _ => none
  | .info _ => none
  | .fallback _ => none
  | .send _ => none
  | .closed => none

/-- Whether the event is the invocation of the greeting handler. -/
def Event.isGreeting : Event → Bool
  | .stage _ => false
  | .greeting => true
  | .auth _ _ => false
  | .write _ => false
  | .info _ => false
  | .fallback _ => false
  | .send _ => false
  | .closed => false

/-- The stages invoked, in order of invocation. -/
def stagesRun (t : List Event) : List Stage := t.filterMap Event.stage?

/-- The responses sent. -/
def responses (t : List Event) : List Response := t.filterMap Event.send?

/-- The lines given to `logger.info`. -/
def infoLines (t : List Event) : List String := t.filterMap Event.info?

/-- The texts the access-log stage wrote to its stream. -/
def accessWrites (t : List Event) : List String := t.filterMap Event.write?

/-- The faults the final handler converted. -/
def fallbacks (t : List Event) : List Fault := t.filterMap Event.fallback?

/-- The calls of the authentication router. -/
def authCalls (t : List Event) : List (Request × Response) := t.filterMap Event.auth?

/-- The invocations of the greeting handler. -/
def greetings (t : List Event) : List Event := t.filter Event.isGreeting

/-- The request and response in progress after the given stages when every one of
them calls `next()`; `none` when one of them answers, fails or hangs. -/
def passAll (c : Collaborators) : List Stage → Request → Response → Option (Request × Response)
  | [], req, res => some (req, res)
  | s :: rest, req, res =>
    match c.run s req res with
    | .next req1 res1 => passAll c rest req1 res1
    | _ => none


/-- The end of a trace after a stage or handler that did not call `next()`: the
response it sent, the conversion of its fault, or the request left hanging. -/
def ending (c : Collaborators) (req : Request) (armed : Bool) : Outcome → List Event
  | .next _ _ => []
  | .respond r => finish c req armed r
  | .fault e res => failWith c req armed res e
  | .hang res => abandon c req armed res

/-- A fault `e` arises while `req` is handled, with `rq` the request in progress at
that point and `rs` the response as the failing stage or handler left it:
either the stage at some position of the registration order fails after the
stages before it passed the request on, or the authentication router fails
after all seven stages passed it on. -/
def FaultsAt (c : Collaborators) (req rq : Request) (rs : Response) (e : Fault) : Prop :=
  (∃ (i : Nat) (hi : i < registered.length) (rs0 : Response),
    passAll c (registered.take i) req freshResponse = some (rq, rs0) ∧
      c.run registered[i] rq rs0 = .fault e rs) ∨
  (∃ (removed : String) (rs0 : Response),
    passAll c registered req freshResponse = some (rq, rs0) ∧
      matchMount rq.path = some removed ∧
        c.AuthRoutes (mountRequest rq removed) rs0 = .fault e rs)

/-- No stage and no call of the authentication router leaves a request hanging:
each calls `next()`, ends the response, or fails. -/
def NeverHangs (c : Collaborators) : Prop :=
  ∀ (s : Stage) (rq : Request) (rs res : Response),
    c.run s rq rs ≠ .hang res ∧ c.AuthRoutes rq rs ≠ .hang res

/-- While `req` is handled, a stage or the authentication router is invoked and
leaves the request hanging: either the stage at some position of the
registration order does so after the stages before it passed the request on,
or the authentication router does so after all seven stages passed it on. -/
def HangsOn (c : Collaborators) (req : Request) : Prop :=
  (∃ (i : Nat) (hi : i < registered.length) (rq : Request) (rs res : Response),
    passAll c (registered.take i) req freshResponse = some (rq, rs) ∧
      c.run registered[i] rq rs = .hang res) ∨
  (∃ (removed : String) (rq : Request) (rs res : Response),
    passAll c registered req freshResponse = some (rq, rs) ∧
      matchMount rq.path = some removed ∧
        c.AuthRoutes (mountRequest rq removed) rs = .hang res)

/-! ## Concrete collaborators used to exercise the pipeline -/

/-- A stage that calls `next()` and touches nothing. -/
def pass : Middleware := fun req res => .next req res

/-- Collaborators under which every stage passes the request on and the
authentication router answers 201. -/
def quiet : Collaborators :=
  { helmet := pass, cors := pass, json := pass, urlencoded := pass, cookieParser := pass
    securityMiddleware := pass
    AuthRoutes := fun _ res => .respond { res with status := 201, body := "signed in" }
    combined := fun req res => req.method ++ " " ++ req.baseUrl ++ req.path ++ " " ++ toString res.status
    etag := fun _ => "W/\"11-DJEBfvZc6/Fm54PQqwwxcfRD2Ww\""
    parseHttpDate := fun _ => none
    errorPage := fun _ _ _ => "" }

/-- A request with the given method, path and headers and nothing else. -/
def request (method path : String) (headers : List (String × String)) : Request :=
  { method := method, path := path, baseUrl := "", headers := headers, body := "", cookies := [] }

/-- Collaborators under which `securityMiddleware` rejects every request with 403
and every other stage passes it on. -/
def guarded : Collaborators :=
  { quiet with
    securityMiddleware := fun _ res => .respond { res with status := 403, body := "Forbidden" } }

/-- Collaborators whose `cors` answers every OPTIONS request itself with 204, as
`cors()` does with its default options, and passes every other request on. -/
def preflight : Collaborators :=
  { quiet with
    cors := fun req res =>
      if req.method == "OPTIONS" then .respond { res with status := 204 } else .next req res }

/-- The error `express.json()` raises for a body it cannot parse: status 400. -/
def badJson : Fault :=
  { status := some 400, statusCode := some 400, headers := [], message := "malformed JSON" }

/-- An error without a status of its own. -/
def plainError : Fault :=
  { status := none, statusCode := none, headers := [], message := "unexpected" }

/-- An error that only carries `statusCode`, here 413. -/
def tooLarge : Fault :=
  { status := none, statusCode := some 413, headers := [], message := "request entity too large" }

/-- Collaborators whose `json` stage fails with `badJson` on the JSON body `{`, with
`tooLarge` on the body `[`, and passes every other request on. -/
def strict : Collaborators :=
  { quiet with
    json := fun req res =>
      if req.headers.lookup "content-type" == some "application/json" && req.body == "\x7b" then
        .fault badJson res
      else if req.body == "[" then .fault tooLarge res
      else .next req res }

/-- Collaborators whose `securityMiddleware` sets the status 403 on the response
and then fails with an error that has no status: `res.status(403); next(err)`. -/
def denying : Collaborators :=
  { quiet with
    securityMiddleware := fun _ res => .fault plainError { res with status := 403 } }

/-- Collaborators whose authentication router fails with an error that has no
status, on a response it has not touched. -/
def crashing : Collaborators :=
  { quiet with AuthRoutes := fun _ res => .fault plainError res }

/-- Collaborators whose `securityMiddleware` neither calls `next()` nor ends the
response. -/
def stalled : Collaborators :=
  { quiet with securityMiddleware := fun _ res => .hang res }

/-! ## The shape of a trace -/

section Lemmas

variable (c : Collaborators)

/-- When every stage of the chain calls `next()`, the trace is the stage
invocations followed by route dispatch on what the stages left. -/
theorem runChain_pass (ss : List Stage) (req : Request) (res : Response) (armed : Bool)
    (rq : Request) (rs : Response) (h : passAll c ss req res = some (rq, rs)) :
    runChain c ss req res armed =
      ss.map Event.stage ++ dispatch c rq rs (ss.foldl arm armed) := by
  induction ss generalizing req res armed with
  | nil =>
    simp only [passAll, Option.some.injEq, Prod.mk.injEq] at h
    simp [runChain, h.1, h.2]
  | cons s rest ih =>
    simp only [passAll] at h
    cases hs : c.run s req res with
    | next req1 res1 =>
      rw [hs] at h
      simp only [runChain, hs, List.map_cons, List.cons_append, ih req1 res1 _ h, List.foldl_cons]
    | respond r => rw [hs] at h; simp at h
    | fault e r => rw [hs] at h; simp at h
    | hang r => rw [hs] at h; simp at h

/-- When the stages before `s` call `next()` and `s` does not, the trace is the
stage invocations up to `s` followed by what `s` led to. -/
theorem runChain_stop (pre : List Stage) (s : Stage) (post : List Stage) (req : Request)
    (res : Response) (armed : Bool) (rq : Request) (rs : Response)
    (h : passAll c pre req res = some (rq, rs))
    (hs : ∀ req1 res1, c.run s rq rs ≠ .next req1 res1) :
    runChain c (pre ++ s :: post) req res armed =
      (pre ++ [s]).map Event.stage ++
        ending c rq ((pre ++ [s]).foldl arm armed) (c.run s rq rs) := by
  induction pre generalizing req res armed with
  | nil =>
    simp only [passAll, Option.some.injEq, Prod.mk.injEq] at h
    obtain ⟨rfl, rfl⟩ := h
    cases hr : c.run s req res with
    | next req1 res1 => exact absurd hr (hs req1 res1)
    | respond r => simp [runChain, hr, ending]
    | fault e r => simp [runChain, hr, ending]
    | hang r => simp [runChain, hr, ending]
  | cons p rest ih =>
    simp only [passAll] at h
    cases hp : c.run p req res with
    | next req1 res1 =>
      rw [hp] at h
      have step := ih req1 res1 (arm armed p) h
      simp [runChain, hp, step]
    | respond r => rw [hp] at h; simp at h
    | fault e r => rw [hp] at h; simp at h
    | hang r => rw [hp] at h; simp at h

/-- A chain with a stage that does not call `next()` does not pass. -/
theorem passAll_stops (pre : List Stage) (s : Stage) (post : List Stage) (req : Request)
    (res : Response) (rq : Request) (rs : Response)
    (h : passAll c pre req res = some (rq, rs))
    (hs : ∀ req1 res1, c.run s rq rs ≠ .next req1 res1) :
    passAll c (pre ++ s :: post) req res = none := by
  induction pre generalizing req res with
  | nil =>
    simp only [passAll, Option.some.injEq, Prod.mk.injEq] at h
    obtain ⟨rfl, rfl⟩ := h
    cases hr : c.run s req res with
    | next req1 res1 => exact absurd hr (hs req1 res1)
    | respond r => simp [passAll, hr]
    | fault e r => simp [passAll, hr]
    | hang r => simp [passAll, hr]
  | cons p rest ih =>
    simp only [passAll] at h
    cases hp : c.run p req res with
    | next req1 res1 =>
      rw [hp] at h
      simpa [passAll, hp] using ih req1 res1 h
    | respond r => rw [hp] at h; simp at h
    | fault e r => rw [hp] at h; simp at h
    | hang r => rw [hp] at h; simp at h

/-- Passing a chain means passing every initial part of it. -/
theorem passAll_take (ss : List Stage) (n : Nat) (req : Request) (res : Response)
    (h : (passAll c ss req res).isSome) : (passAll c (ss.take n) req res).isSome := by
  induction ss generalizing n req res with
  | nil => simpa using h
  | cons s rest ih =>
    cases n with
    | zero => rfl
    | succ k =>
      simp only [passAll] at h
      simp only [List.take_succ_cons, passAll]
      cases hs : c.run s req res with
      | next req1 res1 =>
        rw [hs] at h
        exact ih k req1 res1 h
      | respond r => rw [hs] at h; simp at h
      | fault e r => rw [hs] at h; simp at h
      | hang r => rw [hs] at h; simp at h

/-- Every chain either passes all its stages, or has a first position at which the
stage does not call `next()` after the ones before it did. -/
theorem chain_cases_at (ss : List Stage) (req : Request) (res : Response) :
    (∃ rq rs, passAll c ss req res = some (rq, rs)) ∨
    (∃ (i : Nat) (hi : i < ss.length) (rq : Request) (rs : Response),
      passAll c (ss.take i) req res = some (rq, rs) ∧
      ∀ req1 res1, c.run ss[i] rq rs ≠ .next req1 res1) := by
  induction ss generalizing req res with
  | nil => exact Or.inl ⟨req, res, rfl⟩
  | cons s rest ih =>
    cases hs : c.run s req res with
    | next req1 res1 =>
      rcases ih req1 res1 with ⟨rq, rs, h⟩ | ⟨i, hi, rq, rs, hpass, hend⟩
      · exact Or.inl ⟨rq, rs, by simp [passAll, hs, h]⟩
      · exact Or.inr ⟨i + 1, by simpa using hi, rq, rs, by simp [passAll, hs, hpass],
          by simpa using hend⟩
    | respond r =>
      exact Or.inr ⟨0, by simp, req, res, rfl, by simp [hs]⟩
    | fault e r =>
      exact Or.inr ⟨0, by simp, req, res, rfl, by simp [hs]⟩
    | hang r =>
      exact Or.inr ⟨0, by simp, req, res, rfl, by simp [hs]⟩

theorem registered_split (i : Nat) (hi : i < registered.length) :
    registered = registered.take i ++ registered[i] :: registered.drop (i + 1) := by
  simp only [registered, List.length_cons, List.length_nil] at hi
  interval_cases i <;> rfl

theorem registered_take_succ (i : Nat) (hi : i < registered.length) :
    registered.take i ++ [registered[i]] = registered.take (i + 1) := by
  simp only [registered, List.length_cons, List.length_nil] at hi
  interval_cases i <;> rfl

theorem registered_armed (i : Nat) (hi : i < registered.length) :
    (registered.take (i + 1)).foldl arm false = decide (5 ≤ i) := by
  simp only [registered, List.length_cons, List.length_nil] at hi
  interval_cases i <;> rfl

/-- The trace when all seven stages pass: morgan is armed at dispatch. -/
theorem handle_pass (req rq : Request) (rs : Response)
    (h : passAll c registered req freshResponse = some (rq, rs)) :
    handle c req = registered.map Event.stage ++ dispatch c rq rs true :=
  runChain_pass c registered req freshResponse false rq rs h

/-- The trace when the stage at position `i` does not call `next()`: morgan is
armed exactly when `5 ≤ i`. -/
theorem handle_stop_at (req : Request) (i : Nat) (hi : i < registered.length)
    (rq : Request) (rs : Response)
    (hpass : passAll c (registered.take i) req freshResponse = some (rq, rs))
    (hstop : ∀ req1 res1, c.run registered[i] rq rs ≠ .next req1 res1) :
    handle c req =
      (registered.take (i + 1)).map Event.stage ++
        ending c rq (decide (5 ≤ i)) (c.run registered[i] rq rs) := by
  have ht := runChain_stop c (registered.take i) registered[i] (registered.drop (i + 1)) req
    freshResponse false rq rs hpass hstop
  rw [← registered_split i hi, registered_take_succ i hi, registered_armed i hi] at ht
  exact ht

/-- A chain stopped at position `i` reached morgan (position 5) exactly when
`5 ≤ i`. -/
theorem reaches_morgan (req : Request) (i : Nat) (hi : i < registered.length)
    (rq : Request) (rs : Response)
    (hpass : passAll c (registered.take i) req freshResponse = some (rq, rs))
    (hstop : ∀ req1 res1, c.run registered[i] rq rs ≠ .next req1 res1) :
    (passAll c (registered.take 5) req freshResponse).isSome = decide (5 ≤ i) := by
  by_cases h5 : 5 ≤ i
  · have hsome : (passAll c (registered.take i) req freshResponse).isSome := by
      rw [hpass]; rfl
    have htake := passAll_take c (registered.take i) 5 req freshResponse hsome
    have hlist : (registered.take i).take 5 = registered.take 5 := by
      simp only [registered, List.length_cons, List.length_nil] at hi
      interval_cases i <;> rfl
    rw [hlist] at htake
    simp [htake, h5]
  · have hlist : registered.take 5 =
        registered.take i ++ registered[i] :: (registered.drop (i + 1)).take (4 - i) := by
      have h4 : i < 5 := by omega
      interval_cases i <;> rfl
    have hnone := passAll_stops c (registered.take i) registered[i]
      ((registered.drop (i + 1)).take (4 - i)) req freshResponse rq rs hpass hstop
    rw [hlist, hnone]
    simp [h5]

theorem stagesRun_append (a b : List Event) : stagesRun (a ++ b) = stagesRun a ++ stagesRun b := by
  simp [stagesRun]

theorem responses_append (a b : List Event) : responses (a ++ b) = responses a ++ responses b := by
  simp [responses]

theorem infoLines_append (a b : List Event) : infoLines (a ++ b) = infoLines a ++ infoLines b := by
  simp [infoLines]

theorem accessWrites_append (a b : List Event) : accessWrites (a ++ b) = accessWrites a ++ accessWrites b := by
  simp [accessWrites]

theorem fallbacks_append (a b : List Event) : fallbacks (a ++ b) = fallbacks a ++ fallbacks b := by
  simp [fallbacks]

theorem authCalls_append (a b : List Event) : authCalls (a ++ b) = authCalls a ++ authCalls b := by
  simp [authCalls]

theorem greetings_append (a b : List Event) : greetings (a ++ b) = greetings a ++ greetings b := by
  simp [greetings]

theorem stagesRun_stages (ss : List Stage) : stagesRun (ss.map Event.stage) = ss := by
  induction ss with
  | nil => rfl
  | cons s rest ih => simpa [stagesRun, Event.stage?] using ih

theorem responses_stages (ss : List Stage) : responses (ss.map Event.stage) = [] := by
  induction ss with
  | nil => rfl
  | cons s rest ih => simp [responses, Event.send?]

theorem infoLines_stages (ss : List Stage) : infoLines (ss.map Event.stage) = [] := by
  induction ss with
  | nil => rfl
  | cons s rest ih => simp [infoLines, Event.info?]

theorem accessWrites_stages (ss : List Stage) : accessWrites (ss.map Event.stage) = [] := by
  induction ss with
  | nil => rfl
  | cons s rest ih => simp [accessWrites, Event.write?]

theorem fallbacks_stages (ss : List Stage) : fallbacks (ss.map Event.stage) = [] := by
  induction ss with
  | nil => rfl
  | cons s rest ih => simp [fallbacks, Event.fallback?]

theorem authCalls_stages (ss : List Stage) : authCalls (ss.map Event.stage) = [] := by
  induction ss with
  | nil => rfl
  | cons s rest ih => simp [authCalls, Event.auth?]

theorem greetings_stages (ss : List Stage) : greetings (ss.map Event.stage) = [] := by
  induction ss with
  | nil => rfl
  | cons s rest ih => simp [greetings, Event.isGreeting]

/-- What the end of a response contributes to each reading of the trace. -/
theorem finish_readings (req : Request) (armed : Bool) (r : Response) :
    stagesRun (finish c req armed r) = [] ∧ responses (finish c req armed r) = [r] ∧
    fallbacks (finish c req armed r) = [] ∧ authCalls (finish c req armed r) = [] ∧
    greetings (finish c req armed r) = [] ∧
    accessWrites (finish c req armed r) = (if armed then [c.combined req r ++ "\n"] else []) ∧
    infoLines (finish c req armed r) = (if armed then [(c.combined req r ++ "\n").trim] else []) := by
  cases armed <;>
    simp [finish, stagesRun, responses, fallbacks, authCalls, greetings, accessWrites, infoLines,
      Event.stage?, Event.send?, Event.fallback?, Event.auth?, Event.isGreeting, Event.write?,
      Event.info?]

/-- What a converted fault contributes to each reading of the trace. -/
theorem failWith_readings (req : Request) (armed : Bool) (res : Response) (e : Fault) :
    stagesRun (failWith c req armed res e) = [] ∧
    responses (failWith c req armed res e) = [finalhandler c (some e) req res] ∧
    fallbacks (failWith c req armed res e) = [e] ∧ authCalls (failWith c req armed res e) = [] ∧
    greetings (failWith c req armed res e) = [] ∧
    accessWrites (failWith c req armed res e) =
      (if armed then [c.combined req (finalhandler c (some e) req res) ++ "\n"] else []) ∧
    infoLines (failWith c req armed res e) =
      (if armed then [(c.combined req (finalhandler c (some e) req res) ++ "\n").trim] else []) := by
  cases armed <;>
    simp [failWith, finish, stagesRun, responses, fallbacks, authCalls, greetings, accessWrites,
      infoLines, Event.stage?, Event.send?, Event.fallback?, Event.auth?, Event.isGreeting,
      Event.write?, Event.info?]

/-- What a request left hanging contributes to each reading of the trace. -/
theorem abandon_readings (req : Request) (armed : Bool) (res : Response) :
    stagesRun (abandon c req armed res) = [] ∧ responses (abandon c req armed res) = [] ∧
    fallbacks (abandon c req armed res) = [] ∧ authCalls (abandon c req armed res) = [] ∧
    greetings (abandon c req armed res) = [] ∧
    accessWrites (abandon c req armed res) =
      (if armed then [c.combined req res ++ "\n"] else []) ∧
    infoLines (abandon c req armed res) =
      (if armed then [(c.combined req res ++ "\n").trim] else []) := by
  cases armed <;>
    simp [abandon, stagesRun, responses, fallbacks, authCalls, greetings, accessWrites, infoLines,
      Event.stage?, Event.send?, Event.fallback?, Event.auth?, Event.isGreeting, Event.write?,
      Event.info?]

/-- What the greeting handler contributes to each reading of the trace. -/
theorem greetingHandler_readings (req : Request) (res : Response) (armed : Bool) :
    stagesRun (greetingHandler c req res armed) = [] ∧
    responses (greetingHandler c req res armed) =
      [send c req (res.setStatus 200) "Hello From Bhavin"] ∧
    fallbacks (greetingHandler c req res armed) = [] ∧
    authCalls (greetingHandler c req res armed) = [] ∧
    greetings (greetingHandler c req res armed) = [.greeting] ∧
    accessWrites (greetingHandler c req res armed) =
      (if armed then [c.combined req (send c req (res.setStatus 200) "Hello From Bhavin") ++ "\n"]
        else []) ∧
    infoLines (greetingHandler c req res armed) =
      "Hello From Bhavin!" ::
        (if armed then
          [(c.combined req (send c req (res.setStatus 200) "Hello From Bhavin") ++ "\n").trim]
        else []) := by
  cases armed <;>
    simp [greetingHandler, finish, stagesRun, responses, fallbacks, authCalls, greetings,
      accessWrites, infoLines, Event.stage?, Event.send?, Event.fallback?, Event.auth?,
      Event.isGreeting, Event.write?, Event.info?]

/-- What the end of a trace after a stage or handler that did not call `next()`
contributes: no stage, no handler, at most one response (exactly one unless
the request was left hanging), and the access line exactly when morgan was
armed, handed trimmed to `logger.info`. -/
theorem ending_readings (req : Request) (armed : Bool) (o : Outcome)
    (hstop : ∀ req1 res1, o ≠ .next req1 res1) :
    stagesRun (ending c req armed o) = [] ∧
    greetings (ending c req armed o) = [] ∧
    authCalls (ending c req armed o) = [] ∧
    (responses (ending c req armed o)).length ≤ 1 ∧
    ((∀ res, o ≠ .hang res) → (responses (ending c req armed o)).length = 1) ∧
    (∃ r, accessWrites (ending c req armed o) =
        (if armed then [c.combined req r ++ "\n"] else []) ∧
      infoLines (ending c req armed o) =
        (accessWrites (ending c req armed o)).map String.trim) := by
  cases o with
  | next req1 res1 => exact absurd rfl (hstop req1 res1)
  | respond r =>
    have h := finish_readings c req armed r
    refine ⟨h.1, h.2.2.2.2.1, h.2.2.2.1, ?_, ?_, r, h.2.2.2.2.2.1, ?_⟩
    · show (responses (finish c req armed r)).length ≤ 1
      rw [h.2.1]; simp
    · intro _
      show (responses (finish c req armed r)).length = 1
      rw [h.2.1]; rfl
    · show infoLines (finish c req armed r) = (accessWrites (finish c req armed r)).map String.trim
      rw [h.2.2.2.2.2.1, h.2.2.2.2.2.2]
      cases armed <;> rfl
  | fault e res =>
    have h := failWith_readings c req armed res e
    refine ⟨h.1, h.2.2.2.2.1, h.2.2.2.1, ?_, ?_, finalhandler c (some e) req res,
      h.2.2.2.2.2.1, ?_⟩
    · show (responses (failWith c req armed res e)).length ≤ 1
      rw [h.2.1]; simp
    · intro _
      show (responses (failWith c req armed res e)).length = 1
      rw [h.2.1]; rfl
    · show infoLines (failWith c req armed res e)
        = (accessWrites (failWith c req armed res e)).map String.trim
      rw [h.2.2.2.2.2.1, h.2.2.2.2.2.2]
      cases armed <;> rfl
  | hang res =>
    have h := abandon_readings c req armed res
    refine ⟨h.1, h.2.2.2.2.1, h.2.2.2.1, ?_, ?_, res, h.2.2.2.2.2.1, ?_⟩
    · show (responses (abandon c req armed res)).length ≤ 1
      rw [h.2.1]; simp
    · intro hno
      exact absurd rfl (hno res)
    · show infoLines (abandon c req armed res)
        = (accessWrites (abandon c req armed res)).map String.trim
      rw [h.2.2.2.2.2.1, h.2.2.2.2.2.2]
      cases armed <;> rfl

theorem dispatch_greeting (req : Request) (res : Response) (armed : Bool)
    (h : (greetingPath req.path && handlesMethod req.method) = true) :
    dispatch c req res armed = greetingHandler c req res armed := by
  simp [dispatch, h]

theorem dispatch_unmatched (req : Request) (res : Response) (armed : Bool)
    (h : (greetingPath req.path && handlesMethod req.method) = false)
    (hm : matchMount req.path = none) :
    dispatch c req res armed = done c req res armed := by
  simp [dispatch, h, hm]

/-- The mount does not match a path of the greeting route. -/
theorem mount_excludes_greeting (req : Request) (removed : String)
    (hm : matchMount req.path = some removed) :
    (greetingPath req.path && handlesMethod req.method) = false := by
  cases hg : greetingPath req.path
  · rfl
  · simp only [greetingPath, Bool.or_eq_true, beq_iff_eq] at hg
    have h1 : matchMount "/" = none := by decide
    have h2 : matchMount "//" = none := by decide
    rcases hg with hg | hg
    · rw [hg, h1] at hm; exact absurd hm (by simp)
    · rw [hg, h2] at hm; exact absurd hm (by simp)

/-- Dispatch on a path under the mount when the router calls `next()`. -/
theorem dispatch_mount_next (req : Request) (res : Response) (armed : Bool) (removed : String)
    (hm : matchMount req.path = some removed) (sub : Request) (res1 : Response)
    (ha : c.AuthRoutes (mountRequest req removed) res = .next sub res1) :
    dispatch c req res armed =
      .auth (mountRequest req removed) res ::
        done c (unmountRequest req removed sub) res1 armed := by
  simp [dispatch, mount_excludes_greeting req removed hm, hm, ha]

/-- Dispatch on a path under the mount when the router does not call `next()`. -/
theorem dispatch_mount_stop (req : Request) (res : Response) (armed : Bool) (removed : String)
    (hm : matchMount req.path = some removed)
    (ha : ∀ sub res1, c.AuthRoutes (mountRequest req removed) res ≠ .next sub res1) :
    dispatch c req res armed =
      .auth (mountRequest req removed) res ::
        ending c req armed (c.AuthRoutes (mountRequest req removed) res) := by
  simp only [dispatch, mount_excludes_greeting req removed hm, hm, Bool.false_eq_true, ↓reduceIte]
  cases hr : c.AuthRoutes (mountRequest req removed) res with
  | next sub res1 => exact absurd hr (ha sub res1)
  | respond r => rfl
  | fault e res1 => rfl
  | hang res1 => rfl

/-- A call of the authentication router is invisible to every reading but
`authCalls`. -/
theorem auth_cons_readings (a : Request) (b : Response) (t : List Event) :
    responses (.auth a b :: t) = responses t ∧ accessWrites (.auth a b :: t) = accessWrites t ∧
    infoLines (.auth a b :: t) = infoLines t ∧ greetings (.auth a b :: t) = greetings t ∧
    fallbacks (.auth a b :: t) = fallbacks t ∧ stagesRun (.auth a b :: t) = stagesRun t ∧
    authCalls (.auth a b :: t) = (a, b) :: authCalls t :=
  ⟨rfl, rfl, rfl, rfl, rfl, rfl, rfl⟩

/-- Route dispatch on a path under the mount: the authentication router is called
once, with the mounted request, and its answer or fault decides the response. -/
theorem dispatch_mount_readings (req : Request) (res : Response) (armed : Bool)
    (removed : String) (hm : matchMount req.path = some removed) :
    authCalls (dispatch c req res armed) = [(mountRequest req removed, res)] ∧
    (∃ rest, dispatch c req res armed = .auth (mountRequest req removed) res :: rest) ∧
    (∀ r, c.AuthRoutes (mountRequest req removed) res = .respond r →
      responses (dispatch c req res armed) = [r]) ∧
    (∀ e res1, c.AuthRoutes (mountRequest req removed) res = .fault e res1 →
      responses (dispatch c req res armed) = [finalhandler c (some e) req res1] ∧
      fallbacks (dispatch c req res armed) = [e]) := by
  refine ⟨?_, ?_, ?_, ?_⟩
  · cases ha : c.AuthRoutes (mountRequest req removed) res with
    | next sub res1 =>
      rw [dispatch_mount_next c req res armed removed hm sub res1 ha,
        (auth_cons_readings _ _ _).2.2.2.2.2.2, done, (finish_readings c _ _ _).2.2.2.1]
    | respond r =>
      rw [dispatch_mount_stop c req res armed removed hm (by simp [ha]),
        (auth_cons_readings _ _ _).2.2.2.2.2.2,
        (ending_readings c req armed _ (by simp [ha])).2.2.1]
    | fault e res1 =>
      rw [dispatch_mount_stop c req res armed removed hm (by simp [ha]),
        (auth_cons_readings _ _ _).2.2.2.2.2.2,
        (ending_readings c req armed _ (by simp [ha])).2.2.1]
    | hang res1 =>
      rw [dispatch_mount_stop c req res armed removed hm (by simp [ha]),
        (auth_cons_readings _ _ _).2.2.2.2.2.2,
        (ending_readings c req armed _ (by simp [ha])).2.2.1]
  · cases ha : c.AuthRoutes (mountRequest req removed) res with
    | next sub res1 => exact ⟨_, dispatch_mount_next c req res armed removed hm sub res1 ha⟩
    | respond r =>
      exact ⟨_, dispatch_mount_stop c req res armed removed hm (by simp [ha])⟩
    | fault e res1 =>
      exact ⟨_, dispatch_mount_stop c req res armed removed hm (by simp [ha])⟩
    | hang res1 =>
      exact ⟨_, dispatch_mount_stop c req res armed removed hm (by simp [ha])⟩
  · intro r hr
    rw [dispatch_mount_stop c req res armed removed hm (by simp [hr]),
      (auth_cons_readings _ _ _).1, hr]
    exact (finish_readings c req armed r).2.1
  · intro e res1 he
    rw [dispatch_mount_stop c req res armed removed hm (by simp [he]),
      (auth_cons_readings _ _ _).1, (auth_cons_readings _ _ _).2.2.2.2.1, he]
    exact ⟨(failWith_readings c req armed res1 e).2.1, (failWith_readings c req armed res1 e).2.2.1⟩

/-- Route dispatch on a path outside the mount never calls the authentication
router. -/
theorem dispatch_no_auth (req : Request) (res : Response) (armed : Bool)
    (hm : matchMount req.path = none) : authCalls (dispatch c req res armed) = [] := by
  cases hg : (greetingPath req.path && handlesMethod req.method)
  · rw [dispatch_unmatched c req res armed hg hm, done]
    exact (finish_readings c _ _ _).2.2.2.1
  · rw [dispatch_greeting c req res armed hg]
    exact (greetingHandler_readings c req res armed).2.2.2.1

/-- The `logger.info` lines of a trace without the greeting handler, once they are
known to be the trimmed access lines. -/
theorem log_without_greeting (t : List Event) (hg : greetings t = [])
    (hi : infoLines t = (accessWrites t).map String.trim) :
    infoLines t =
      (if greetings t = [] then [] else ["Hello From Bhavin!"]) ++
        (accessWrites t).map String.trim := by
  rw [if_pos hg, List.nil_append]; exact hi

/-- The `logger.info` lines of a sent response are the trimmed access lines. -/
theorem finish_log (req : Request) (armed : Bool) (r : Response) :
    infoLines (finish c req armed r) = (accessWrites (finish c req armed r)).map String.trim := by
  have h := finish_readings c req armed r
  rw [h.2.2.2.2.2.1, h.2.2.2.2.2.2]
  cases armed <;> rfl

/-- Route dispatch invokes no stage, sends at most one response (exactly one when
the authentication router does not leave the request hanging), and never
invokes both the greeting handler and the authentication router. -/
theorem dispatch_count (req : Request) (res : Response) (armed : Bool) :
    stagesRun (dispatch c req res armed) = [] ∧
    (responses (dispatch c req res armed)).length ≤ 1 ∧
    ((∀ rq rs r1, c.AuthRoutes rq rs ≠ .hang r1) →
      (responses (dispatch c req res armed)).length = 1) ∧
    (greetings (dispatch c req res armed) = [] ∨ authCalls (dispatch c req res armed) = []) := by
  cases hg : (greetingPath req.path && handlesMethod req.method)
  · cases hm : matchMount req.path with
    | none =>
      rw [dispatch_unmatched c req res armed hg hm, done]
      have h := finish_readings c req armed (defaultResponse c req res)
      exact ⟨h.1, by rw [h.2.1]; simp, fun _ => by rw [h.2.1]; rfl, Or.inl h.2.2.2.2.1⟩
    | some removed =>
      cases ha : c.AuthRoutes (mountRequest req removed) res with
      | next sub res1 =>
        rw [dispatch_mount_next c req res armed removed hm sub res1 ha, done]
        have h := finish_readings c (unmountRequest req removed sub) armed
          (defaultResponse c (unmountRequest req removed sub) res1)
        have a := auth_cons_readings (mountRequest req removed) res
          (finish c (unmountRequest req removed sub) armed
            (defaultResponse c (unmountRequest req removed sub) res1))
        rw [a.1, a.2.2.2.2.2.1, a.2.2.2.1, h.2.1, h.1, h.2.2.2.2.1]
        exact ⟨rfl, by simp, fun _ => rfl, Or.inl rfl⟩
      | respond r =>
        have hstop : ∀ sub res1, c.AuthRoutes (mountRequest req removed) res ≠ .next sub res1 := by
          simp [ha]
        rw [dispatch_mount_stop c req res armed removed hm hstop]
        have h := ending_readings c req armed _ hstop
        have a := auth_cons_readings (mountRequest req removed) res
          (ending c req armed (c.AuthRoutes (mountRequest req removed) res))
        rw [a.1, a.2.2.2.2.2.1, a.2.2.2.1]
        exact ⟨h.1, h.2.2.2.1, fun hno => h.2.2.2.2.1 (fun r1 => hno _ _ r1), Or.inl h.2.1⟩
      | fault e res1 =>
        have hstop : ∀ sub res1, c.AuthRoutes (mountRequest req removed) res ≠ .next sub res1 := by
          simp [ha]
        rw [dispatch_mount_stop c req res armed removed hm hstop]
        have h := ending_readings c req armed _ hstop
        have a := auth_cons_readings (mountRequest req removed) res
          (ending c req armed (c.AuthRoutes (mountRequest req removed) res))
        rw [a.1, a.2.2.2.2.2.1, a.2.2.2.1]
        exact ⟨h.1, h.2.2.2.1, fun hno => h.2.2.2.2.1 (fun r1 => hno _ _ r1), Or.inl h.2.1⟩
      | hang res1 =>
        have hstop : ∀ sub res1, c.AuthRoutes (mountRequest req removed) res ≠ .next sub res1 := by
          simp [ha]
        rw [dispatch_mount_stop c req res armed removed hm hstop]
        have h := ending_readings c req armed _ hstop
        have a := auth_cons_readings (mountRequest req removed) res
          (ending c req armed (c.AuthRoutes (mountRequest req removed) res))
        rw [a.1, a.2.2.2.2.2.1, a.2.2.2.1]
        exact ⟨h.1, h.2.2.2.1, fun hno => h.2.2.2.2.1 (fun r1 => hno _ _ r1), Or.inl h.2.1⟩
  · rw [dispatch_greeting c req res armed hg]
    have h := greetingHandler_readings c req res armed
    exact ⟨h.1, by rw [h.2.1]; simp, fun _ => by rw [h.2.1]; rfl, Or.inr h.2.2.2.1⟩

/-- The log of route dispatch: the access line is written exactly when morgan was
armed; the `logger.info` lines are the greeting handler's message, when it ran,
followed by the trimmed access line; and the greeting handler sends the
response the access line is about. -/
theorem dispatch_log (req : Request) (res : Response) (armed : Bool) :
    ∃ rq r,
      accessWrites (dispatch c req res armed) =
        (if armed then [c.combined rq r ++ "\n"] else []) ∧
      infoLines (dispatch c req res armed) =
        (if greetings (dispatch c req res armed) = [] then [] else ["Hello From Bhavin!"]) ++
          (accessWrites (dispatch c req res armed)).map String.trim ∧
      (greetings (dispatch c req res armed) ≠ [] →
        responses (dispatch c req res armed) = [r]) := by
  cases hg : (greetingPath req.path && handlesMethod req.method)
  · cases hm : matchMount req.path with
    | none =>
      rw [dispatch_unmatched c req res armed hg hm, done]
      have h := finish_readings c req armed (defaultResponse c req res)
      exact ⟨req, _, h.2.2.2.2.2.1,
        log_without_greeting _ h.2.2.2.2.1 (finish_log c _ _ _),
        fun hne => absurd h.2.2.2.2.1 hne⟩
    | some removed =>
      cases ha : c.AuthRoutes (mountRequest req removed) res with
      | next sub res1 =>
        rw [dispatch_mount_next c req res armed removed hm sub res1 ha, done]
        have h := finish_readings c (unmountRequest req removed sub) armed
          (defaultResponse c (unmountRequest req removed sub) res1)
        have hl := finish_log c (unmountRequest req removed sub) armed
          (defaultResponse c (unmountRequest req removed sub) res1)
        exact ⟨_, _, h.2.2.2.2.2.1, log_without_greeting _ h.2.2.2.2.1 hl,
          fun hne => absurd h.2.2.2.2.1 hne⟩
      | respond r =>
        have hstop : ∀ sub res1, c.AuthRoutes (mountRequest req removed) res ≠ .next sub res1 := by
          simp [ha]
        rw [dispatch_mount_stop c req res armed removed hm hstop]
        obtain ⟨_, hgr, _, _, _, r1, hw, hi⟩ := ending_readings c req armed _ hstop
        exact ⟨req, r1, hw, log_without_greeting _ hgr hi, fun hne => absurd hgr hne⟩
      | fault e res1 =>
        have hstop : ∀ sub res1, c.AuthRoutes (mountRequest req removed) res ≠ .next sub res1 := by
          simp [ha]
        rw [dispatch_mount_stop c req res armed removed hm hstop]
        obtain ⟨_, hgr, _, _, _, r1, hw, hi⟩ := ending_readings c req armed _ hstop
        exact ⟨req, r1, hw, log_without_greeting _ hgr hi, fun hne => absurd hgr hne⟩
      | hang res1 =>
        have hstop : ∀ sub res1, c.AuthRoutes (mountRequest req removed) res ≠ .next sub res1 := by
          simp [ha]
        rw [dispatch_mount_stop c req res armed removed hm hstop]
        obtain ⟨_, hgr, _, _, _, r1, hw, hi⟩ := ending_readings c req armed _ hstop
        exact ⟨req, r1, hw, log_without_greeting _ hgr hi, fun hne => absurd hgr hne⟩
  · rw [dispatch_greeting c req res armed hg]
    have h := greetingHandler_readings c req res armed
    refine ⟨req, send c req (res.setStatus 200) "Hello From Bhavin", h.2.2.2.2.2.1, ?_,
      fun _ => h.2.1⟩
    rw [h.2.2.2.2.1, h.2.2.2.2.2.1, h.2.2.2.2.2.2]
    cases armed <;> rfl

/-- Every request gets at most one response, and exactly one when no stage and no
call of the authentication router leaves it hanging; and no request has both
the greeting handler and the authentication router invoked. -/
theorem handle_count (req : Request) :
    (responses (handle c req)).length ≤ 1 ∧
    (NeverHangs c → (responses (handle c req)).length = 1) ∧
    (greetings (handle c req) = [] ∨ authCalls (handle c req) = []) := by
  rcases chain_cases_at c registered req freshResponse with
    ⟨rq, rs, h⟩ | ⟨i, hi, rq, rs, hpass, hstop⟩
  · have hd := dispatch_count c rq rs true
    rw [handle_pass c req rq rs h, responses_append, responses_stages, greetings_append,
      greetings_stages, authCalls_append, authCalls_stages, List.nil_append, List.nil_append,
      List.nil_append]
    exact ⟨hd.2.1, fun hno => hd.2.2.1 (fun a b r1 => (hno Stage.helmet a b r1).2), hd.2.2.2⟩
  · have he := ending_readings c rq (decide (5 ≤ i)) _ hstop
    rw [handle_stop_at c req i hi rq rs hpass hstop, responses_append, responses_stages,
      greetings_append, greetings_stages, List.nil_append, List.nil_append]
    exact ⟨he.2.2.2.1, fun hno => he.2.2.2.2.1 (fun r1 => (hno _ rq rs r1).1), Or.inl he.2.1⟩

/-- Route dispatch sends exactly one response unless the authentication router is
called and leaves the request hanging. -/
theorem dispatch_one_or_hang (req : Request) (res : Response) (armed : Bool) :
    (responses (dispatch c req res armed)).length = 1 ∨
    (∃ removed res1, matchMount req.path = some removed ∧
      c.AuthRoutes (mountRequest req removed) res = .hang res1) := by
  cases hm : matchMount req.path with
  | none =>
    cases hg : (greetingPath req.path && handlesMethod req.method)
    · rw [dispatch_unmatched c req res armed hg hm, done, (finish_readings c _ _ _).2.1]
      exact Or.inl rfl
    · rw [dispatch_greeting c req res armed hg, (greetingHandler_readings c _ _ _).2.1]
      exact Or.inl rfl
  | some removed =>
    cases ha : c.AuthRoutes (mountRequest req removed) res with
    | next sub res1 =>
      rw [dispatch_mount_next c req res armed removed hm sub res1 ha, done,
        (auth_cons_readings _ _ _).1, (finish_readings c _ _ _).2.1]
      exact Or.inl rfl
    | respond r =>
      rw [((dispatch_mount_readings c req res armed removed hm).2.2.1 r ha)]
      exact Or.inl rfl
    | fault e res1 =>
      rw [((dispatch_mount_readings c req res armed removed hm).2.2.2 e res1 ha).1]
      exact Or.inl rfl
    | hang res1 => exact Or.inr ⟨removed, res1, rfl, ha⟩

/-- A request gets exactly one response unless a stage or the authentication
router is invoked and leaves it hanging. -/
theorem handle_one_or_hang (req : Request) :
    (responses (handle c req)).length = 1 ∨ HangsOn c req := by
  rcases chain_cases_at c registered req freshResponse with
    ⟨rq, rs, h⟩ | ⟨i, hi, rq, rs, hpass, hstop⟩
  · rcases dispatch_one_or_hang c rq rs true with hone | ⟨removed, res1, hm, ha⟩
    · left
      rw [handle_pass c req rq rs h, responses_append, responses_stages, List.nil_append]
      exact hone
    · exact Or.inr (Or.inr ⟨removed, rq, rs, res1, h, hm, ha⟩)
  · cases ho : c.run registered[i] rq rs with
    | next req1 res1 => exact absurd ho (hstop req1 res1)
    | respond r =>
      left
      rw [handle_stop_at c req i hi rq rs hpass hstop, responses_append, responses_stages, ho]
      exact (ending_readings c rq _ (.respond r) (by simp)).2.2.2.2.1 (by simp)
    | fault e res1 =>
      left
      rw [handle_stop_at c req i hi rq rs hpass hstop, responses_append, responses_stages, ho]
      exact (ending_readings c rq _ (.fault e res1) (by simp)).2.2.2.2.1 (by simp)
    | hang res1 => exact Or.inr (Or.inl ⟨i, hi, rq, rs, res1, hpass, ho⟩)

/-- The log of one request: the access line is written exactly when the five
stages before morgan passed the request on; the `logger.info` lines are the
greeting handler's message, when it ran, followed by the trimmed access line;
and the greeting handler runs only after morgan and sends the response the
access line is about. -/
theorem handle_log (req : Request) :
    ∃ rq r,
      accessWrites (handle c req) =
        (if (passAll c (registered.take 5) req freshResponse).isSome
          then [c.combined rq r ++ "\n"] else []) ∧
      infoLines (handle c req) =
        (if greetings (handle c req) = [] then [] else ["Hello From Bhavin!"]) ++
          (accessWrites (handle c req)).map String.trim ∧
      (greetings (handle c req) ≠ [] →
        (passAll c (registered.take 5) req freshResponse).isSome ∧
          responses (handle c req) = [r]) := by
  rcases chain_cases_at c registered req freshResponse with
    ⟨rq, rs, h⟩ | ⟨i, hi, rq, rs, hpass, hstop⟩
  · have hreach : (passAll c (registered.take 5) req freshResponse).isSome :=
      passAll_take c registered 5 req freshResponse (by rw [h]; rfl)
    obtain ⟨rq1, r, h2, h3, h4⟩ := dispatch_log c rq rs true
    rw [handle_pass c req rq rs h, accessWrites_append, accessWrites_stages, infoLines_append,
      infoLines_stages, greetings_append, greetings_stages, responses_append, responses_stages,
      List.nil_append, List.nil_append, List.nil_append, List.nil_append, hreach]
    exact ⟨rq1, r, h2, h3, fun hne => ⟨rfl, h4 hne⟩⟩
  · have hreach := reaches_morgan c req i hi rq rs hpass hstop
    obtain ⟨_, hgr, _, _, _, r, hw, hinfo⟩ := ending_readings c rq (decide (5 ≤ i)) _ hstop
    rw [handle_stop_at c req i hi rq rs hpass hstop, accessWrites_append, accessWrites_stages,
      infoLines_append, infoLines_stages, greetings_append, greetings_stages, responses_append,
      responses_stages, List.nil_append, List.nil_append, List.nil_append, List.nil_append,
      hreach]
    exact ⟨rq, r, hw, log_without_greeting _ hgr hinfo, fun hne => absurd hgr hne⟩

/-- An unconditional request is never fresh. -/
theorem reqFresh_unconditional (req : Request) (res : Response) (etag : Option String)
    (hnm : req.headers.lookup "if-none-match" = none)
    (hms : req.headers.lookup "if-modified-since" = none) :
    reqFresh c req res etag = false := by
  simp [reqFresh, fresh, hnm, hms, truthy]

end Lemmas

/-! ## The pipeline contract -/

/-- C9 (amended): for every request and every behaviour of the collaborators,
handling the request never sends two responses; it sends exactly one unless a
stage or the authentication router is invoked for it and leaves it hanging
(neither calls `next()` nor ends the response nor fails); so it sends exactly
one whenever the collaborators never do that. -/
theorem handle_sends_at_most_one_response (c : Collaborators) (req : Request) :
    (responses (handle c req)).length ≤ 1 ∧
    ((responses (handle c req)).length = 1 ∨ HangsOn c req) ∧
    (NeverHangs c → (responses (handle c req)).length = 1) :=
  ⟨(handle_count c req).1, handle_one_or_hang c req, (handle_count c req).2.1⟩

/-- C9 (amended) at a concrete input: the collaborators `quiet` never hang, and a
GET for `/` gets exactly one response. -/
theorem handle_sends_at_most_one_response_witness :
    NeverHangs quiet ∧ (responses (handle quiet (request "GET" "/" []))).length = 1 :=
  have hq : NeverHangs quiet := by
    intro s rq rs res
    cases s <;> simp [Collaborators.run, quiet, pass]
  ⟨hq, (handle_sends_at_most_one_response quiet (request "GET" "/" [])).2.2 hq⟩

/-- C9 as stated fails: when `securityMiddleware` neither calls `next()` nor ends
the response, all seven stages are invoked and no response is sent. -/
theorem hanging_stage_counterexample :
    stalled.run Stage.securityMiddleware (request "GET" "/" []) freshResponse
      = .hang freshResponse ∧
    stagesRun (handle stalled (request "GET" "/" []))
      = [Stage.helmet, Stage.cors, Stage.json, Stage.urlencoded, Stage.cookieParser,
          Stage.morgan, Stage.securityMiddleware] ∧
    responses (handle stalled (request "GET" "/" [])) = [] := by
  decide

/-- C2: the stages invoked for a request are an initial part of the sequence
helmet, cors, express.json, express.urlencoded, cookieParser, morgan,
securityMiddleware; they are all invoked before anything else happens (route
dispatch, the final handler, the access line); no stage is invoked twice; and
when helmet passes the request on to cors, cors to express.json, express.json
to express.urlencoded, express.urlencoded to cookieParser, and cookieParser
(through morgan, which always passes it on) to securityMiddleware, and that
one passes it on too, the stages invoked are exactly those seven in that
order, followed by route dispatch on what securityMiddleware left. -/
theorem stages_run_in_registration_order (c : Collaborators) (req : Request) :
    stagesRun (handle c req) <+:
      [Stage.helmet, Stage.cors, Stage.json, Stage.urlencoded, Stage.cookieParser,
        Stage.morgan, Stage.securityMiddleware] ∧
    (∃ rest, handle c req = (stagesRun (handle c req)).map Event.stage ++ rest ∧
      stagesRun rest = []) ∧
    (stagesRun (handle c req)).Nodup ∧
    (∀ (r1 r2 r3 r4 r5 r6 : Request) (s1 s2 s3 s4 s5 s6 : Response),
      c.helmet req freshResponse = .next r1 s1 → c.cors r1 s1 = .next r2 s2 →
      c.json r2 s2 = .next r3 s3 → c.urlencoded r3 s3 = .next r4 s4 →
      c.cookieParser r4 s4 = .next r5 s5 → c.securityMiddleware r5 s5 = .next r6 s6 →
        stagesRun (handle c req) =
          [Stage.helmet, Stage.cors, Stage.json, Stage.urlencoded, Stage.cookieParser,
            Stage.morgan, Stage.securityMiddleware] ∧
        handle c req =
          [Event.stage Stage.helmet, Event.stage Stage.cors, Event.stage Stage.json,
            Event.stage Stage.urlencoded, Event.stage Stage.cookieParser,
            Event.stage Stage.morgan, Event.stage Stage.securityMiddleware] ++
            dispatch c r6 s6 true) := by
  have hall : ∀ rq rs, passAll c registered req freshResponse = some (rq, rs) →
      stagesRun (handle c req) = registered ∧
        handle c req = registered.map Event.stage ++ dispatch c rq rs true := by
    intro rq rs h
    have ht := handle_pass c req rq rs h
    refine ⟨?_, ht⟩
    rw [ht, stagesRun_append, stagesRun_stages, (dispatch_count c _ _ _).1, List.append_nil]
  have hnodup : registered.Nodup := by decide
  refine ⟨?_, ?_, ?_, ?_⟩
  · show stagesRun (handle c req) <+: registered
    rcases chain_cases_at c registered req freshResponse with
      ⟨rq, rs, h⟩ | ⟨i, hi, rq, rs, hpass, hstop⟩
    · exact ⟨[], by rw [(hall rq rs h).1, List.append_nil]⟩
    · refine ⟨registered.drop (i + 1), ?_⟩
      rw [handle_stop_at c req i hi rq rs hpass hstop, stagesRun_append, stagesRun_stages,
        (ending_readings c rq _ _ hstop).1, List.append_nil, List.take_append_drop]
  · rcases chain_cases_at c registered req freshResponse with
      ⟨rq, rs, h⟩ | ⟨i, hi, rq, rs, hpass, hstop⟩
    · exact ⟨_, by rw [(hall rq rs h).1]; exact (hall rq rs h).2, (dispatch_count c _ _ _).1⟩
    · have ht := handle_stop_at c req i hi rq rs hpass hstop
      have hs : stagesRun (handle c req) = registered.take (i + 1) := by
        rw [ht, stagesRun_append, stagesRun_stages, (ending_readings c rq _ _ hstop).1,
          List.append_nil]
      exact ⟨_, by rw [hs]; exact ht, (ending_readings c rq _ _ hstop).1⟩
  · rcases chain_cases_at c registered req freshResponse with
      ⟨rq, rs, h⟩ | ⟨i, hi, rq, rs, hpass, hstop⟩
    · rw [(hall rq rs h).1]; exact hnodup
    · rw [handle_stop_at c req i hi rq rs hpass hstop, stagesRun_append, stagesRun_stages,
        (ending_readings c rq _ _ hstop).1, List.append_nil]
      rw [← List.take_append_drop (i + 1) registered] at hnodup
      exact hnodup.of_append_left
  · intro r1 r2 r3 r4 r5 r6 s1 s2 s3 s4 s5 s6 h1 h2 h3 h4 h5 h6
    have hp : passAll c registered req freshResponse = some (r6, s6) := by
      simp [passAll, registered, Collaborators.run, h1, h2, h3, h4, h5, h6]
    exact hall r6 s6 hp

/-- C2 at a concrete input: under `quiet` each stage passes a GET for `/` on
unchanged, and the seven stages are invoked in the order helmet, cors,
express.json, express.urlencoded, cookieParser, morgan, securityMiddleware. -/
theorem stages_run_in_registration_order_witness :
    stagesRun (handle quiet (request "GET" "/" [])) =
      [Stage.helmet, Stage.cors, Stage.json, Stage.urlencoded, Stage.cookieParser,
        Stage.morgan, Stage.securityMiddleware] :=
  ((stages_run_in_registration_order quiet (request "GET" "/" [])).2.2.2
    (request "GET" "/" []) (request "GET" "/" []) (request "GET" "/" [])
    (request "GET" "/" []) (request "GET" "/" []) (request "GET" "/" [])
    freshResponse freshResponse freshResponse freshResponse freshResponse freshResponse
    rfl rfl rfl rfl rfl rfl).1

/-- C5: if the stage at position `i` of the registration order answers the request
itself, after the stages before it passed it on, then the stages invoked are
exactly those up to position `i`, neither the greeting handler nor the
authentication router is invoked, no fault is converted, the one response sent
is the stage's own, and the only `logger.info` line is the access line (present
when morgan, position 5, had been invoked): the greeting handler's log line and
its 200 response do not occur. -/
theorem short_circuit_is_final (c : Collaborators) (req : Request) (i : Nat)
    (hi : i < registered.length) (rq : Request) (rs r : Response)
    (hpass : passAll c (registered.take i) req freshResponse = some (rq, rs))
    (hstop : c.run registered[i] rq rs = .respond r) :
    stagesRun (handle c req) = registered.take (i + 1) ∧
    greetings (handle c req) = [] ∧
    authCalls (handle c req) = [] ∧
    fallbacks (handle c req) = [] ∧
    responses (handle c req) = [r] ∧
    infoLines (handle c req) = (if 5 ≤ i then [(c.combined rq r ++ "\n").trim] else []) := by
  have ht := handle_stop_at c req i hi rq rs hpass (by simp [hstop])
  rw [hstop] at ht
  have hf := finish_readings c rq (decide (5 ≤ i)) r
  have he : ending c rq (decide (5 ≤ i)) (.respond r) = finish c rq (decide (5 ≤ i)) r := rfl
  rw [ht, he]
  refine ⟨?_, ?_, ?_, ?_, ?_, ?_⟩
  · rw [stagesRun_append, stagesRun_stages, hf.1, List.append_nil]
  · rw [greetings_append, greetings_stages, hf.2.2.2.2.1]; rfl
  · rw [authCalls_append, authCalls_stages, hf.2.2.2.1]; rfl
  · rw [fallbacks_append, fallbacks_stages, hf.2.2.1]; rfl
  · rw [responses_append, responses_stages, hf.2.1]; rfl
  · rw [infoLines_append, infoLines_stages, hf.2.2.2.2.2.2]; simp

/-- C5 at a concrete input: `securityMiddleware` (position 6) rejects a GET for `/`
with 403; that is the response, and the greeting handler is not invoked. -/
theorem short_circuit_is_final_witness :
    passAll guarded (registered.take 6) (request "GET" "/" []) freshResponse
        = some (request "GET" "/" [], freshResponse) ∧
    guarded.run Stage.securityMiddleware (request "GET" "/" []) freshResponse
        = .respond { status := 403, headers := [], body := "Forbidden" } ∧
    greetings (handle guarded (request "GET" "/" [])) = [] ∧
    responses (handle guarded (request "GET" "/" []))
        = [{ status := 403, headers := [], body := "Forbidden" }] :=
  have h := short_circuit_is_final guarded (request "GET" "/" []) 6 (by decide)
    (request "GET" "/" []) freshResponse { status := 403, headers := [], body := "Forbidden" }
    (by decide) (by decide)
  ⟨by decide, by decide, h.2.1, h.2.2.2.2.1⟩

/-- C10: no method and path are matched both by the greeting route (`/`, GET and
HEAD) and by the mount `/api/auth`, and no request has both the greeting handler
and the authentication router invoked. -/
theorem route_table_matches_at_most_one (c : Collaborators) (req : Request) :
    (∀ method path : String,
      ¬ ((greetingPath path && handlesMethod method) = true ∧ underAuth path = true)) ∧
    (greetings (handle c req) = [] ∨ authCalls (handle c req) = []) := by
  constructor
  · rintro method path ⟨hg, hm⟩
    simp only [Bool.and_eq_true, greetingPath, Bool.or_eq_true, beq_iff_eq] at hg
    have h1 : underAuth "/" = false := by decide
    have h2 : underAuth "//" = false := by decide
    rcases hg.1 with hp | hp
    · rw [hp, h1] at hm; exact absurd hm (by simp)
    · rw [hp, h2] at hm; exact absurd hm (by simp)
  · exact (handle_count c req).2.2

/-- C1 (amended): when the seven stages pass a request on as a GET for `/` that
carries neither an `If-None-Match` nor an `If-Modified-Since` header, the one
response sent has status 200 and body exactly "Hello From Bhavin", whatever the
other headers, the body and the cookies are. -/
theorem greeting_answers_unconditional_get (c : Collaborators) (req rq : Request) (rs : Response)
    (hpass : passAll c registered req freshResponse = some (rq, rs))
    (hmethod : rq.method = "GET") (hpath : rq.path = "/")
    (hnm : rq.headers.lookup "if-none-match" = none)
    (hms : rq.headers.lookup "if-modified-since" = none) :
    ∃ r, responses (handle c req) = [r] ∧ r.status = 200 ∧ r.body = "Hello From Bhavin" := by
  have hg : (greetingPath rq.path && handlesMethod rq.method) = true := by
    rw [hmethod, hpath]; decide
  refine ⟨send c rq (rs.setStatus 200) "Hello From Bhavin", ?_, ?_, ?_⟩
  · rw [handle_pass c req rq rs hpass, responses_append, responses_stages,
      dispatch_greeting c rq rs true hg, (greetingHandler_readings c rq rs true).2.1]
    rfl
  · simp [send, reqFresh_unconditional c rq _ _ hnm hms, Response.setStatus]
  · simp [send, reqFresh_unconditional c rq _ _ hnm hms, Response.setStatus, hmethod]

/-- C1 (amended) at a concrete input: a GET for `/` with a User-Agent header and a
cookie is answered 200 "Hello From Bhavin". -/
theorem greeting_answers_unconditional_get_witness :
    ∃ r, responses (handle quiet
        { request "GET" "/" [("user-agent", "curl/8.5.0")] with cookies := [("sid", "42")] })
      = [r] ∧ r.status = 200 ∧ r.body = "Hello From Bhavin" :=
  greeting_answers_unconditional_get quiet
    { request "GET" "/" [("user-agent", "curl/8.5.0")] with cookies := [("sid", "42")] }
    { request "GET" "/" [("user-agent", "curl/8.5.0")] with cookies := [("sid", "42")] }
    freshResponse (by decide) (by decide) (by decide) (by decide) (by decide)

/-- C1 as stated fails: a GET for `/` with the header `If-None-Match: *` passes all
seven stages and is answered 304 with an empty body, not 200 with the
greeting. -/
theorem greeting_conditional_get_counterexample :
    (request "GET" "/" [("if-none-match", "*")]).method = "GET" ∧
    (request "GET" "/" [("if-none-match", "*")]).path = "/" ∧
    passAll quiet registered (request "GET" "/" [("if-none-match", "*")]) freshResponse
      = some (request "GET" "/" [("if-none-match", "*")], freshResponse) ∧
    responses (handle quiet (request "GET" "/" [("if-none-match", "*")]))
      = [{ status := 304, headers := [], body := "" }] := by
  decide

/-- C3 (amended): when the seven stages pass a request on whose path is not under
the mount `/api/auth` and which is not a GET, HEAD or OPTIONS request for the
greeting route's path (`/`, or `//` which the non-strict matcher treats the
same), the one response sent has status 404. -/
theorem unmatched_request_gets_404 (c : Collaborators) (req rq : Request) (rs : Response)
    (hpass : passAll c registered req freshResponse = some (rq, rs))
    (hauth : underAuth rq.path = false)
    (hroot : (rq.path ≠ "/" ∧ rq.path ≠ "//") ∨
      (lower rq.method ≠ "get" ∧ lower rq.method ≠ "head" ∧ rq.method ≠ "OPTIONS")) :
    ∃ r, responses (handle c req) = [r] ∧ r.status = 404 := by
  have hg : (greetingPath rq.path && handlesMethod rq.method) = false := by
    rcases hroot with ⟨hp1, hp2⟩ | ⟨h1, h2, _⟩
    · simp [greetingPath, hp1, hp2]
    · simp [handlesMethod, h1, h2]
  have hm : matchMount rq.path = none := by
    simpa [underAuth] using hauth
  have ha : allowed rq = [] := by
    rcases hroot with ⟨hp1, hp2⟩ | ⟨_, _, h3⟩
    · simp [allowed, greetingPath, hp1, hp2]
    · simp [allowed, h3]
  refine ⟨finalhandler c none rq rs, ?_, rfl⟩
  rw [handle_pass c req rq rs hpass, responses_append, responses_stages,
    dispatch_unmatched c rq rs true hg hm, done, (finish_readings c _ _ _).2.1, defaultResponse,
    if_pos ha]
  rfl

/-- C3 (amended) at a concrete input: a POST for `/` is answered 404. -/
theorem unmatched_request_gets_404_witness :
    ∃ r, responses (handle quiet (request "POST" "/" [])) = [r] ∧ r.status = 404 :=
  unmatched_request_gets_404 quiet (request "POST" "/" []) (request "POST" "/" []) freshResponse
    (by decide) (by decide) (Or.inr (by decide))

/-- C3 as stated fails: a HEAD request for `/` is not a GET for `/` and not under
`/api/auth`, passes all seven stages, and is answered 200 by the greeting
route, not 404. -/
theorem head_request_counterexample :
    ¬ ((request "HEAD" "/" []).method = "GET" ∧ (request "HEAD" "/" []).path = "/") ∧
    underAuth (request "HEAD" "/" []).path = false ∧
    passAll quiet registered (request "HEAD" "/" []) freshResponse
      = some (request "HEAD" "/" [], freshResponse) ∧
    responses (handle quiet (request "HEAD" "/" []))
      = [{ status := 200, headers := [], body := "" }] := by
  decide

/-- C4 (amended): the authentication router is invoked only after all seven stages
were invoked in registration order and passed the request on, and only for a
path under the mount `/api/auth`; conversely every request the stages pass on
with such a path (any method) reaches it, exactly once. It receives the
response in progress as the stages left it and the request as the stages left
it except for the mount rewrite: the matched mount path is cut from the request
path and appended to the base URL, while method, headers, body and cookies are
untouched. When the router answers, that answer is the one response sent. -/
theorem auth_router_runs_after_stages (c : Collaborators) (req : Request) :
    (∀ sub res, (sub, res) ∈ authCalls (handle c req) →
      ∃ rq removed, passAll c registered req freshResponse = some (rq, res) ∧
        matchMount rq.path = some removed ∧ sub = mountRequest rq removed ∧
        ∃ rest, handle c req = registered.map Event.stage ++ Event.auth sub res :: rest) ∧
    (∀ rq rs removed, passAll c registered req freshResponse = some (rq, rs) →
      matchMount rq.path = some removed →
        authCalls (handle c req) = [(mountRequest rq removed, rs)] ∧
        (mountRequest rq removed).method = rq.method ∧
        (mountRequest rq removed).headers = rq.headers ∧
        (mountRequest rq removed).body = rq.body ∧
        (mountRequest rq removed).cookies = rq.cookies ∧
        (∀ r, c.AuthRoutes (mountRequest rq removed) rs = .respond r →
          responses (handle c req) = [r])) := by
  constructor
  · intro sub res hmem
    rcases chain_cases_at c registered req freshResponse with
      ⟨rq, rs, h⟩ | ⟨i, hi, rq, rs, hpass, hstop⟩
    · have ht := handle_pass c req rq rs h
      rw [ht, authCalls_append, authCalls_stages, List.nil_append] at hmem
      cases hm : matchMount rq.path with
      | none =>
        rw [dispatch_no_auth c rq rs true hm] at hmem
        simp at hmem
      | some removed =>
        obtain ⟨hcalls, ⟨rest, hrest⟩, _, _⟩ := dispatch_mount_readings c rq rs true removed hm
        rw [hcalls] at hmem
        simp only [List.mem_singleton, Prod.mk.injEq] at hmem
        obtain ⟨hsub, hres⟩ := hmem
        rw [hsub, hres]
        exact ⟨rq, removed, h, hm, rfl, rest, by rw [ht, hrest]⟩
    · rw [handle_stop_at c req i hi rq rs hpass hstop, authCalls_append, authCalls_stages,
        (ending_readings c rq _ _ hstop).2.2.1] at hmem
      simp at hmem
  · intro rq rs removed hpass hm
    obtain ⟨hcalls, _, hanswer, _⟩ := dispatch_mount_readings c rq rs true removed hm
    have ht := handle_pass c req rq rs hpass
    refine ⟨?_, rfl, rfl, rfl, rfl, ?_⟩
    · rw [ht, authCalls_append, authCalls_stages, hcalls]; rfl
    · intro r hr
      rw [ht, responses_append, responses_stages, hanswer r hr]; rfl

/-- C4 as stated fails: for a POST to `/api/auth/sign-in` that passes all seven
stages unchanged, the authentication router does not receive the request as
the stages left it: it is called with path `/sign-in` and base URL
`/api/auth`. -/
theorem auth_router_request_counterexample :
    passAll quiet registered (request "POST" "/api/auth/sign-in" []) freshResponse
      = some (request "POST" "/api/auth/sign-in" [], freshResponse) ∧
    authCalls (handle quiet (request "POST" "/api/auth/sign-in" []))
      = [({ request "POST" "/sign-in" [] with baseUrl := "/api/auth" }, freshResponse)] ∧
    ({ request "POST" "/sign-in" [] with baseUrl := "/api/auth" } : Request)
      ≠ request "POST" "/api/auth/sign-in" [] := by
  decide

/-- C6 (amended): for every request and every branch taken afterwards, the
access-logging stage writes exactly one line when the five stages registered
before it (helmet, cors, express.json, express.urlencoded, cookieParser) passed
the request on, and no line when one of those five answered or failed; each
line written is handed, trimmed, to `logger.info`. -/
theorem access_line_when_morgan_was_reached (c : Collaborators) (req : Request) :
    (accessWrites (handle c req)).length =
      (if (passAll c (registered.take 5) req freshResponse).isSome then 1 else 0) ∧
    (∀ m ∈ accessWrites (handle c req), m.trim ∈ infoLines (handle c req)) := by
  obtain ⟨rq, r, hw, hinfo, _⟩ := handle_log c req
  constructor
  · rw [hw]
    cases (passAll c (registered.take 5) req freshResponse).isSome <;> rfl
  · intro m hm
    rw [hinfo]
    exact List.mem_append_right _ (List.mem_map_of_mem _ hm)

/-- C6 as stated fails: when `cors` answers an OPTIONS request with 204, the
response is sent and the access-logging stage writes no line. -/
theorem early_answer_is_not_logged_counterexample :
    responses (handle preflight (request "OPTIONS" "/api/auth/sign-in" []))
      = [{ status := 204, headers := [], body := "" }] ∧
    stagesRun (handle preflight (request "OPTIONS" "/api/auth/sign-in" []))
      = [Stage.helmet, Stage.cors] ∧
    (accessWrites (handle preflight (request "OPTIONS" "/api/auth/sign-in" []))).length = 0 := by
  decide

/-- C7 (amended): for every request and every stage or handler that fails, exactly
one response is sent and the final handler converts exactly one fault. The
status of that response is `err.status` when that is a code from 400 to 599;
otherwise `err.statusCode` when that is a code from 400 to 599; otherwise the
status the failing stage or handler left on the response when that is a code
from 400 to 599; otherwise 500. -/
theorem fault_is_converted_once (c : Collaborators) (req rq : Request) (rs : Response)
    (e : Fault) (h : FaultsAt c req rq rs e) :
    ∃ r, responses (handle c req) = [r] ∧ fallbacks (handle c req) = [e] ∧
      (∀ s, e.status = some s → 400 ≤ s → s < 600 → r.status = s) ∧
      (∀ t, (∀ s, e.status = some s → s < 400 ∨ 600 ≤ s) →
        e.statusCode = some t → 400 ≤ t → t < 600 → r.status = t) ∧
      ((∀ s, e.status = some s → s < 400 ∨ 600 ≤ s) →
        (∀ t, e.statusCode = some t → t < 400 ∨ 600 ≤ t) →
          (400 ≤ rs.status → rs.status < 600 → r.status = rs.status) ∧
          (rs.status < 400 ∨ 600 ≤ rs.status → r.status = 500)) := by
  have hstatus : (finalhandler c (some e) rq rs).status = finalStatus (some e) rs := rfl
  refine ⟨finalhandler c (some e) rq rs, ?_, ?_, ?_, ?_, ?_⟩
  · rcases h with ⟨i, hi, rs0, hpass, he⟩ | ⟨removed, rs0, hpass, hm, he⟩
    · have ht := handle_stop_at c req i hi rq rs0 hpass (by simp [he])
      rw [he] at ht
      rw [ht, responses_append, responses_stages]
      exact (failWith_readings c rq _ rs e).2.1
    · rw [handle_pass c req rq rs0 hpass, responses_append, responses_stages,
        ((dispatch_mount_readings c rq rs0 true removed hm).2.2.2 e rs he).1]
      rfl
  · rcases h with ⟨i, hi, rs0, hpass, he⟩ | ⟨removed, rs0, hpass, hm, he⟩
    · have ht := handle_stop_at c req i hi rq rs0 hpass (by simp [he])
      rw [he] at ht
      rw [ht, fallbacks_append, fallbacks_stages]
      exact (failWith_readings c rq _ rs e).2.2.1
    · rw [handle_pass c req rq rs0 hpass, fallbacks_append, fallbacks_stages,
        ((dispatch_mount_readings c rq rs0 true removed hm).2.2.2 e rs he).2]
      rfl
  · intro s hs h1 h2
    rw [hstatus]
    simp [finalStatus, getErrorStatusCode, hs, h1, h2]
  · intro t hst hc h1 h2
    rw [hstatus]
    cases hs : e.status with
    | none => simp [finalStatus, getErrorStatusCode, hs, hc, h1, h2]
    | some s =>
      have hout := hst s hs
      have hno : ¬ (400 ≤ s ∧ s < 600) := by omega
      simp [finalStatus, getErrorStatusCode, hs, hc, h1, h2, hno]
  · intro hst hct
    have hnone : getErrorStatusCode e = none := by
      cases hs : e.status with
      | none =>
        cases hc : e.statusCode with
        | none => simp [getErrorStatusCode, hs, hc]
        | some t =>
          have hno : ¬ (400 ≤ t ∧ t < 600) := by have := hct t hc; omega
          simp [getErrorStatusCode, hs, hc, hno]
      | some s =>
        have hno : ¬ (400 ≤ s ∧ s < 600) := by have := hst s hs; omega
        cases hc : e.statusCode with
        | none => simp [getErrorStatusCode, hs, hc, hno]
        | some t =>
          have hno2 : ¬ (400 ≤ t ∧ t < 600) := by have := hct t hc; omega
          simp [getErrorStatusCode, hs, hc, hno, hno2]
    constructor
    · intro hlo hhi
      rw [hstatus]; simp only [finalStatus, hnone, getResponseStatusCode]
      rw [if_neg (by omega)]
    · intro hout
      rw [hstatus]; simp only [finalStatus, hnone, getResponseStatusCode]
      rw [if_pos (by omega)]

/-- C7 (amended) at concrete inputs. A POST with the JSON body `{` makes
`express.json()` fail with status 400 and is answered 400; one with the body `[`
makes it fail with only `statusCode` 413 and is answered 413; when
`securityMiddleware` sets status 403 on the response and then fails with an
error without status, the answer is 403; and when the authentication router
fails with such an error on an untouched response, the answer is 500. -/
theorem fault_is_converted_once_witness :
    (∃ r, responses (handle strict
        { request "POST" "/api/auth/sign-in" [("content-type", "application/json")]
          with body := "\x7b" }) = [r] ∧ r.status = 400) ∧
    (∃ r, responses (handle strict
        { request "POST" "/api/auth/sign-in" [] with body := "[" }) = [r] ∧ r.status = 413) ∧
    (∃ r, responses (handle denying (request "GET" "/" [])) = [r] ∧ r.status = 403) ∧
    (∃ r, responses (handle crashing (request "POST" "/api/auth/sign-in" [])) = [r] ∧
      r.status = 500) :=
  ⟨(fault_is_converted_once strict
      { request "POST" "/api/auth/sign-in" [("content-type", "application/json")]
        with body := "\x7b" }
      { request "POST" "/api/auth/sign-in" [("content-type", "application/json")]
        with body := "\x7b" }
      freshResponse badJson (Or.inl ⟨2, by decide, freshResponse, by decide, by decide⟩)).imp
      fun _ hr => ⟨hr.1, hr.2.2.1 400 (by decide) (by decide) (by decide)⟩,
    (fault_is_converted_once strict
      { request "POST" "/api/auth/sign-in" [] with body := "[" }
      { request "POST" "/api/auth/sign-in" [] with body := "[" }
      freshResponse tooLarge (Or.inl ⟨2, by decide, freshResponse, by decide, by decide⟩)).imp
      fun _ hr => ⟨hr.1, hr.2.2.2.1 413 (by decide) (by decide) (by decide) (by decide)⟩,
    (fault_is_converted_once denying (request "GET" "/" []) (request "GET" "/" [])
      { freshResponse with status := 403 } plainError
      (Or.inl ⟨6, by decide, freshResponse, by decide, by decide⟩)).imp
      fun _ hr => ⟨hr.1, (hr.2.2.2.2 (by decide) (by decide)).1 (by decide) (by decide)⟩,
    (fault_is_converted_once crashing (request "POST" "/api/auth/sign-in" [])
      (request "POST" "/api/auth/sign-in" []) freshResponse plainError
      (Or.inr ⟨"/api/auth", freshResponse, by decide, by decide, by decide⟩)).imp
      fun _ hr => ⟨hr.1, (hr.2.2.2.2 (by decide) (by decide)).2 (Or.inl (by decide))⟩⟩

/-- C7 as stated fails: a POST with the JSON body `{` makes `express.json()`
(position 2) fail with a fault the stage does not answer itself, and the
response sent has status 400, not 500. -/
theorem malformed_body_counterexample :
    passAll strict (registered.take 2)
        { request "POST" "/api/auth/sign-in" [("content-type", "application/json")]
          with body := "\x7b" } freshResponse
      = some ({ request "POST" "/api/auth/sign-in" [("content-type", "application/json")]
          with body := "\x7b" }, freshResponse) ∧
    strict.run Stage.json
        { request "POST" "/api/auth/sign-in" [("content-type", "application/json")]
          with body := "\x7b" } freshResponse
      = .fault badJson freshResponse ∧
    (responses (handle strict
        { request "POST" "/api/auth/sign-in" [("content-type", "application/json")]
          with body := "\x7b" })).map Response.status
      = [400] ∧
    fallbacks (handle strict
        { request "POST" "/api/auth/sign-in" [("content-type", "application/json")]
          with body := "\x7b" })
      = [badJson] := by
  decide

/-- C8 (amended): for every request that reaches the greeting handler, exactly two
lines are given to `logger.info`: first the handler's own message "Hello From
Bhavin!", then the trimmed access line that morgan writes for the one response
sent. -/
theorem greeting_logs_two_lines (c : Collaborators) (req : Request)
    (h : greetings (handle c req) ≠ []) :
    (infoLines (handle c req)).length = 2 ∧
    ∃ rq r, responses (handle c req) = [r] ∧
      accessWrites (handle c req) = [c.combined rq r ++ "\n"] ∧
      infoLines (handle c req) = ["Hello From Bhavin!", (c.combined rq r ++ "\n").trim] := by
  obtain ⟨rq, r, hw, hinfo, hreach⟩ := handle_log c req
  obtain ⟨hmorgan, hr⟩ := hreach h
  rw [hmorgan, if_pos rfl] at hw
  have hlines : infoLines (handle c req)
      = ["Hello From Bhavin!", (c.combined rq r ++ "\n").trim] := by
    rw [hinfo, hw, if_neg h]; rfl
  exact ⟨by rw [hlines]; rfl, rq, r, hr, hw, hlines⟩

/-- C8 (amended) at a concrete input: a GET for `/` reaches the greeting handler and
two lines are given to `logger.info`. -/
theorem greeting_logs_two_lines_witness :
    greetings (handle quiet (request "GET" "/" [])) ≠ [] ∧
    (infoLines (handle quiet (request "GET" "/" []))).length = 2 :=
  ⟨by decide, (greeting_logs_two_lines quiet (request "GET" "/" []) (by decide)).1⟩

/-- C8 as stated fails: a GET for `/` reaches the greeting handler once, and the
lines given to `logger.info` number two, not one. -/
theorem greeting_log_count_counterexample :
    greetings (handle quiet (request "GET" "/" [])) = [Event.greeting] ∧
    (infoLines (handle quiet (request "GET" "/" []))).length = 2 ∧
    (infoLines (handle quiet (request "GET" "/" []))).length ≠ 1 := by
  decide

end App
